import Mathlib

/-!
Shallow embedding of `app.py` from the `homebanking` repository: a script that
fetches a bank account balance through the GoCardless Bank Account Data API and
writes it to a spreadsheet, with a locally cached refresh token.

The effectful parts (file system, HTTP, clock) are made explicit: directory
listings, cache-file contents and server responses become parameters, and the
functions return `Except` values together with a record of the writes they
perform.  Machine-level details that the script never exercises (JSON syntax,
HTTP transport) stay abstract.
-/

namespace Homebanking

/-- Decidable equality on `Except`, so that concrete runs of the embedded
functions can be checked by `decide`. -/
instance instDecEqExcept {ε α : Type} [DecidableEq ε] [DecidableEq α] :
    DecidableEq (Except ε α) :=
  fun a b =>
    match a, b with
    | .ok x, .ok y =>
      if h : x = y then isTrue (by rw [h]) else isFalse (by intro hc; cases hc; exact h rfl)
    | .error x, .error y =>
      if h : x = y then isTrue (by rw [h]) else isFalse (by intro hc; cases hc; exact h rfl)
    | .ok _, .error _ => isFalse (by intro hc; cases hc)
    | .error _, .ok _ => isFalse (by intro hc; cases hc)

/-- Python string truthiness on an optional string: `None` and `""` are falsy. -/
def strTruthy : Option String → Bool
  | none => false
  | some s => !(s == "")

/-- `a or b` on an optional string against a string default, as Python
evaluates it: a present non-empty string wins, otherwise the default. -/
def pyOrStr (o : Option String) (d : String) : String :=
  match o with
  | some s => if s = "" then d else s
  | none => d

/-! ### Secrets Loader: `find_single_json` (app.py lines 22–28) -/

/-- One entry of a directory listing, as `Path.iterdir` reports it:
a name plus whether the entry is a regular file. -/
structure DirEntry where
  name : String
  isFile : Bool
deriving DecidableEq

/-- Largest index of a `'.'` in the character list, `str.rfind('.')` style. -/
def lastDotIndex (cs : List Char) : Option Nat :=
  ((List.range cs.length).filter (fun i => cs.getD i ' ' == '.')).getLast?

/-- `pathlib.PurePath.suffix`: the extension from the final dot, empty when the
name has no dot, is a dotfile, or ends in a dot. -/
def fileSuffix (name : String) : String :=
  match lastDotIndex name.data with
  | none => ""
  | some i =>
    if 0 < i ∧ i + 1 < name.data.length then String.mk (name.data.drop i) else ""

/-- `str.lower` restricted to what `Char.toLower` covers (ASCII, which is all
the script compares: `".json"`). -/
def lowerName (s : String) : String :=
  String.mk (s.data.map Char.toLower)

/-- The filter in `find_single_json`: a regular file whose lower-cased suffix
is `".json"`. -/
def isJsonFile (e : DirEntry) : Bool :=
  e.isFile && (lowerName (fileSuffix e.name) == ".json")

/-- Lexicographic code-point comparison of names, the order `sorted(...)`
applies to paths. -/
def leName (a b : List Char) : Bool :=
  match a, b with
  | [], _ => true
  | _ :: _, [] => false
  | c :: cs, d :: ds =>
    if c.toNat < d.toNat then true
    else if d.toNat < c.toNat then false
    else leName cs ds

/-- Insertion step of the name sort (`sorted(...)` over paths). -/
def insertByName (f : DirEntry) : List DirEntry → List DirEntry
  | [] => [f]
  | g :: gs => if leName f.name.data g.name.data then f :: g :: gs else g :: insertByName f gs

/-- `sorted(...)` over directory entries, keyed by name. -/
def sortByName : List DirEntry → List DirEntry
  | [] => []
  | f :: fs => insertByName f (sortByName fs)

/-- `find_single_json(dir_path)`: the directory listing is `none` when the
directory does not exist.  Raises (models `RuntimeError`) unless the listing
holds exactly one `.json` file, which it returns. -/
def find_single_json (dir : Option (List DirEntry)) : Except String DirEntry :=
  match dir with
  | none => .error "Secrets dir does not exist"
  | some entries =>
    match sortByName (entries.filter isJsonFile) with
    | [f] => .ok f
    | _ => .error "Expected exactly 1 .json"

/-! ### Token Manager (app.py lines 48–89) -/

/-- State of the token cache file as `get_refresh_token_cached` observes it:
missing, present but not valid JSON (`load_json` raises), or parsed with the
two keys each possibly absent (`None`-valued keys collapse onto `none` too,
exactly as the `or 0` / truthiness tests treat them). -/
inductive CacheFile where
  | absent
  | invalid
  | parsed (refresh : Option String) (refresh_expires_at : Option Int)
deriving DecidableEq

/-- What one call to `get_refresh_token_cached` produced: the returned token,
whether the token-issuance endpoint was called, and what (if anything) was
written to the cache file. -/
structure TokenResult where
  token : String
  usedNetwork : Bool
  cacheWritten : Option (String × Int)
deriving DecidableEq

/-- `token_new`: the server response `(refresh, refresh_expires)` becomes
`(refresh, refresh_expires_at)` with absolute expiry `now + refresh_expires`,
or `0` when the server reports no (zero) expiry. -/
def token_new (now : Int) (resp_refresh : String) (resp_refresh_expires : Int) :
    String × Int :=
  (resp_refresh, if resp_refresh_expires = 0 then 0 else now + resp_refresh_expires)

/-- The fresh-issuance path of `get_refresh_token_cached`: load secrets and
call `token_new` (both folded into the `issue` parameter, `.error` when either
fails), then persist `{refresh, refresh_expires_at}` and return the token. -/
def freshToken (now : Int) (issue : Except String (String × Int)) :
    Except String TokenResult :=
  match issue with
  | .error m => .error m
  | .ok (r, es) =>
    let p := token_new now r es
    .ok ⟨p.1, true, some p⟩

/-- `get_refresh_token_cached()`: reuse the cached refresh token when the file
parses, the `refresh` key is truthy, and the expiry is zero or more than 60
seconds away; otherwise mint a fresh token.  `now` is `time.time()`, `issue`
the outcome of secrets loading plus the `POST /token/new/` call. -/
def get_refresh_token_cached (file : CacheFile) (now : Int)
    (issue : Except String (String × Int)) : Except String TokenResult :=
  match file with
  | .invalid => .error "cache file is not valid JSON"
  | .absent => freshToken now issue
  | .parsed refreshOpt expOpt =>
    let exp_at : Int := expOpt.getD 0
    match refreshOpt with
    | some r =>
      if r ≠ "" ∧ (exp_at = 0 ∨ now < exp_at - 60) then .ok ⟨r, false, none⟩
      else freshToken now issue
    | none => freshToken now issue

/-! ### Balance Selector: `choose_balance` (app.py lines 115–137) -/

/-- The `balanceAmount` sub-object of a balance record. -/
structure BalanceAmount where
  amount : String
  currency : String
deriving DecidableEq

/-- One balance record of the `balances` list; every key the script touches is
optional, matching `dict.get`. -/
structure BalanceRecord where
  balanceType : Option String := none
  balanceAmount : Option BalanceAmount := none
  referenceDate : Option String := none
  lastChangeDateTime : Option String := none
deriving DecidableEq

/-- Split a character list at commas, as Python `str.split(",")` does:
`[]` becomes `[""]`, separators at the ends produce empty pieces. -/
def splitOnComma (cs : List Char) : List (List Char) :=
  match cs with
  | [] => [[]]
  | c :: rest =>
    let r := splitOnComma rest
    if c = ',' then [] :: r
    else
      match r with
      | [] => [[c]]
      | g :: gs => (c :: g) :: gs

/-- Drop leading and trailing whitespace from a character list. -/
def stripChars (cs : List Char) : List Char :=
  ((cs.dropWhile Char.isWhitespace).reverse.dropWhile Char.isWhitespace).reverse

/-- Python `str.strip()`. -/
def pyStrip (s : String) : String := String.mk (stripChars s.data)

/-- Python `str.split(",")`. -/
def pySplitComma (s : String) : List String := (splitOnComma s.data).map String.mk

/-- The hard-coded default of `BALANCE_TYPE_PREFERENCE`. -/
def defaultPreferenceStr : String :=
  "closingBooked,closingAvailable,interimBooked,interimAvailable,expected"

/-- Lines 120–122 of `choose_balance`: the preference list from the
`BALANCE_TYPE_PREFERENCE` environment variable (`none` when unset), split on
commas, entries stripped, falsy (empty) entries dropped. -/
def preference_list (env : Option String) : List String :=
  let raw := match env with
    | none => defaultPreferenceStr
    | some s => if s = "" then defaultPreferenceStr else s
  ((pySplitComma raw).filter (fun p => pyStrip p != "")).map pyStrip

/-- Line 124, the dict comprehension `by_type`: lookup of the last record whose
truthy `balanceType` equals `t` (dict construction is last-wins); records with
an absent or empty `balanceType` are never indexed, and `""` is never a key. -/
def byType (balances : List BalanceRecord) (t : String) : Option BalanceRecord :=
  if t = "" then none
  else (balances.filter (fun b => b.balanceType == some t)).getLast?

/-- Lines 126–129: scan the preference list in order and return the first
record the index yields. -/
def findPreferred (bt : String → Option BalanceRecord) :
    List String → Option BalanceRecord
  | [] => none
  | t :: rest =>
    match bt t with
    | some r => some r
    | none => findPreferred bt rest

/-- Lines 124–131: the record `choose_balance` settles on — the preferred one
when some preferred type is indexed, otherwise the first record in payload
order; `none` only on an empty list. -/
def pickRecord (preferred : List String) (balances : List BalanceRecord) :
    Option BalanceRecord :=
  match balances.head? with
  | none => none
  | some b0 => some ((findPreferred (byType balances) preferred).getD b0)

/-- Digit string to number, most significant first. -/
def digitsVal (cs : List Char) : Nat :=
  cs.foldl (fun a c => a * 10 + (c.toNat - 48)) 0

/-- Unsigned part of `decimal.Decimal(str)` for plain fixed-point literals:
digits with at most one dot somewhere, at least one digit overall.  The value
is the exact rational `intpart.fracpart`. -/
def parseUnsigned (cs : List Char) : Option ℚ :=
  let ip := cs.takeWhile (fun c => c != '.')
  let rest := cs.dropWhile (fun c => c != '.')
  match rest with
  | [] =>
    if ip ≠ [] ∧ ip.all Char.isDigit then some (digitsVal ip) else none
  | _ :: fp =>
    if (ip ≠ [] ∨ fp ≠ []) ∧ ip.all Char.isDigit ∧ fp.all Char.isDigit then
      some (((digitsVal ip : ℚ) * 10 ^ fp.length + digitsVal fp) / 10 ^ fp.length)
    else none

/-- Modelled from the Python standard library: `decimal.Decimal(str)` on the
finite fixed-point literals the API sends (optional sign, digits, optional
fractional part; no exponents, specials or surrounding whitespace).  `none`
models the `InvalidOperation` the constructor raises.  The result is an exact
rational, never a binary floating-point approximation. -/
def parseDecimal (s : String) : Option ℚ :=
  match s.data with
  | [] => none
  | c :: cs =>
    if c = '-' then (parseUnsigned cs).map (fun q => -q)
    else if c = '+' then parseUnsigned cs
    else parseUnsigned (c :: cs)

/-- Line 136: `chosen.get("referenceDate") or chosen.get("lastChangeDateTime")
or ""`. -/
def refTimestamp (b : BalanceRecord) : String :=
  pyOrStr b.referenceDate (pyOrStr b.lastChangeDateTime "")

/-- `choose_balance(balances_json)`: `balances_json.get("balances", [])` is the
first argument (`none` when the key is absent), the environment variable the
second.  Returns `(amount, currency, balanceType, reference)` or raises. -/
def choose_balance (balances_json : Option (List BalanceRecord))
    (pref_env : Option String) : Except String (ℚ × String × String × String) :=
  match pickRecord (preference_list pref_env) (balances_json.getD []) with
  | none => .error "No balances returned"
  | some chosen =>
    match chosen.balanceAmount with
    | none => .error "KeyError: balanceAmount"
    | some ba =>
      match parseDecimal ba.amount with
      | none => .error "decimal.InvalidOperation"
      | some amt => .ok (amt, ba.currency, chosen.balanceType.getD "", refTimestamp chosen)

/-! ### Command Layer: `cmd_run` (app.py lines 189–207) -/

/-- Everything `cmd_run` reads from its surroundings: the three required
environment variables, the token-cache file, the clock, the outcome of secrets
loading plus token issuance, the outcome of the access-token refresh call, the
outcome of the balances GET (payload's `balances` key optional), the balance
preference variable, and the spreadsheet-secrets directory listing. -/
structure RunEnv where
  gc_account_id : Option String
  gsheet_id : Option String
  gsheet_range : Option String
  cacheFile : CacheFile
  now : Int
  issue : Except String (String × Int)
  accessResult : Except String String
  balancesResult : Except String (Option (List BalanceRecord))
  balancePref : Option String
  gsheetsSecretsDir : Option (List DirEntry)

/-- The externally visible writes of one `cmd_run` invocation: what was
persisted to the token-cache file, and the row handed to the spreadsheet
update (amount, currency, balance type, reference, unix timestamp). -/
structure RunEffects where
  cacheWritten : Option (String × Int)
  sheetWritten : Option (ℚ × String × String × String × Int)
deriving DecidableEq

/-- `cmd_run(args)`: validate the three environment variables, fetch the
balances (which first runs the token flow — this is where the cache file may
be rewritten), choose a balance, load the spreadsheet credentials and write
the row.  The returned `RunEffects` records the writes that happened even when
the command fails part-way. -/
def cmd_run (env : RunEnv) : Except String Unit × RunEffects :=
  if !strTruthy env.gc_account_id then (.error "Missing env GC_ACCOUNT_ID", ⟨none, none⟩)
  else if !strTruthy env.gsheet_id then (.error "Missing env GSHEET_ID", ⟨none, none⟩)
  else if !strTruthy env.gsheet_range then (.error "Missing env GSHEET_RANGE", ⟨none, none⟩)
  else
    match get_refresh_token_cached env.cacheFile env.now env.issue with
    | .error m => (.error m, ⟨none, none⟩)
    | .ok tr =>
      match env.accessResult with
      | .error m => (.error m, ⟨tr.cacheWritten, none⟩)
      | .ok _ =>
        match env.balancesResult with
        | .error m => (.error m, ⟨tr.cacheWritten, none⟩)
        | .ok payload =>
          match choose_balance payload env.balancePref with
          | .error m => (.error m, ⟨tr.cacheWritten, none⟩)
          | .ok (amt, cur, btype, ref) =>
            match find_single_json env.gsheetsSecretsDir with
            | .error m => (.error m, ⟨tr.cacheWritten, none⟩)
            | .ok _ =>
              (.ok (), ⟨tr.cacheWritten, some (amt, cur, btype, ref, env.now)⟩)

/-- Whether an `Except` value is a success. -/
def isOkE {ε α : Type} : Except ε α → Bool
  | .ok _ => true
  | .error _ => false

/-! ### Concrete fixtures used to evaluate the embedded functions -/

/-- A balance record of type `interimAvailable`. -/
def recInterimAvailable : BalanceRecord where
  balanceType := some "interimAvailable"
  balanceAmount := some ⟨"1.00", "EUR"⟩

/-- A balance record of type `closingBooked` with amount `"123.45"`. -/
def recClosingBooked : BalanceRecord where
  balanceType := some "closingBooked"
  balanceAmount := some ⟨"123.45", "EUR"⟩

/-- A balance record whose type is not in the default preference list. -/
def recOtherA : BalanceRecord where
  balanceType := some "someOtherType"
  balanceAmount := some ⟨"5.00", "EUR"⟩

/-- A second record whose type is not in the default preference list. -/
def recOtherB : BalanceRecord where
  balanceType := some "anotherType"
  balanceAmount := some ⟨"9.99", "USD"⟩

/-- A balance record with no `balanceType` key. -/
def recNoType : BalanceRecord where
  balanceAmount := some ⟨"7.00", "EUR"⟩

/-- A `run` environment: all variables set, no cache file, successful token
issuance, but a balances payload whose list is empty. -/
def exRunEnv : RunEnv where
  gc_account_id := some "acct"
  gsheet_id := some "sheet"
  gsheet_range := some "A1:E1"
  cacheFile := .absent
  now := 1000
  issue := .ok ("r1", 3600)
  accessResult := .ok "a1"
  balancesResult := .ok (some [])
  balancePref := none
  gsheetsSecretsDir := some [⟨"sa.json", true⟩]

/-! ### Helper lemmas -/

lemma find?_congr {α : Type} (p q : α → Bool) (l : List α) (h : ∀ x ∈ l, p x = q x) :
    l.find? p = l.find? q := by
  induction l with
  | nil => rfl
  | cons a as ih =>
    rw [List.find?_cons, List.find?_cons, h a (by simp),
      ih (fun x hx => h x (by simp [hx]))]

lemma any_perm {α : Type} (p : α → Bool) {l l' : List α} (h : l.Perm l') :
    l.any p = l'.any p := by
  rw [Bool.eq_iff_iff]
  simp only [List.any_eq_true]
  constructor
  · rintro ⟨x, hx, hpx⟩; exact ⟨x, h.mem_iff.mp hx, hpx⟩
  · rintro ⟨x, hx, hpx⟩; exact ⟨x, h.mem_iff.mpr hx, hpx⟩

lemma byType_some (bs : List BalanceRecord) (t : String) (r : BalanceRecord)
    (h : byType bs t = some r) : r ∈ bs ∧ r.balanceType = some t ∧ t ≠ "" := by
  unfold byType at h
  by_cases ht : t = ""
  · rw [ht, if_pos rfl] at h
    exact Option.noConfusion h
  · rw [if_neg ht] at h
    have hr := List.mem_of_getLast?_eq_some h
    rw [List.mem_filter] at hr
    refine ⟨hr.1, ?_, ht⟩
    simpa using hr.2

lemma byType_isSome_iff (bs : List BalanceRecord) (t : String) (ht : t ≠ "") :
    (byType bs t).isSome ↔ ∃ b ∈ bs, b.balanceType = some t := by
  unfold byType
  rw [if_neg ht]
  rw [List.getLast?_isSome]
  constructor
  · intro hne
    rcases List.exists_mem_of_ne_nil _ hne with ⟨b, hb⟩
    rw [List.mem_filter] at hb
    exact ⟨b, hb.1, by simpa using hb.2⟩
  · rintro ⟨b, hb, hbt⟩
    intro hnil
    rw [List.filter_eq_nil_iff] at hnil
    exact hnil b hb (by simpa using hbt)

lemma findPreferred_eq (bt : String → Option BalanceRecord) (ps : List String) :
    findPreferred bt ps = (ps.find? (fun t => (bt t).isSome)).bind bt := by
  induction ps with
  | nil => rfl
  | cons t rest ih =>
    rw [List.find?_cons]
    cases h : bt t with
    | some r => simp [findPreferred, h]
    | none => simp [findPreferred, h, ih]

lemma findPreferred_mem (bt : String → Option BalanceRecord) (ps : List String)
    (r : BalanceRecord) (h : findPreferred bt ps = some r) : ∃ t ∈ ps, bt t = some r := by
  rw [findPreferred_eq] at h
  cases hf : ps.find? (fun t => (bt t).isSome) with
  | none => rw [hf] at h; simp at h
  | some t =>
    rw [hf] at h
    rw [Option.some_bind] at h
    exact ⟨t, List.mem_of_find?_eq_some hf, h⟩

lemma pick_of_find (preferred : List String) (bs : List BalanceRecord) (t : String)
    (h0 : "" ∉ preferred)
    (ht : preferred.find? (fun s => bs.any (fun b => b.balanceType == some s)) = some t) :
    ∃ r, pickRecord preferred bs = some r ∧ r.balanceType = some t := by
  have hcong : preferred.find? (fun s => bs.any (fun b => b.balanceType == some s)) =
      preferred.find? (fun s => (byType bs s).isSome) := by
    apply find?_congr
    intro s hs
    have hs' : s ≠ "" := fun e => h0 (e ▸ hs)
    rw [Bool.eq_iff_iff]
    rw [byType_isSome_iff bs s hs']
    simp only [List.any_eq_true]
    constructor
    · rintro ⟨b, hb, hbt⟩; exact ⟨b, hb, by simpa using hbt⟩
    · rintro ⟨b, hb, hbt⟩; exact ⟨b, hb, by simpa using hbt⟩
  have ht' := ht
  rw [hcong] at ht'
  have hpred := List.find?_some ht'
  rcases Option.isSome_iff_exists.mp hpred with ⟨r, hr⟩
  have hmem := byType_some bs t r hr
  have hne : bs ≠ [] := by
    intro e
    subst e
    simp at hmem
  obtain ⟨b0, rest, rfl⟩ := List.exists_cons_of_ne_nil hne
  refine ⟨r, ?_, hmem.2.1⟩
  unfold pickRecord
  simp only [List.head?_cons, findPreferred_eq, ht', Option.some_bind, hr, Option.getD_some]

lemma takeWhile_append_dot (ip fp : List Char) (h : ∀ c ∈ ip, c.isDigit) :
    (ip ++ '.' :: fp).takeWhile (fun c => c != '.') = ip ∧
    (ip ++ '.' :: fp).dropWhile (fun c => c != '.') = '.' :: fp := by
  induction ip with
  | nil => simp [List.takeWhile_cons, List.dropWhile_cons]
  | cons c cs ih =>
    have hcd : c.isDigit := h c (by simp)
    have hc : (c != '.') = true := by
      have : c ≠ '.' := by intro e; subst e; exact absurd hcd (by decide)
      simpa using this
    have ih' := ih (fun d hd => h d (by simp [hd]))
    simp [List.takeWhile_cons, List.dropWhile_cons, hc, ih'.1, ih'.2]

lemma parseUnsigned_append (ip fp : List Char) (hip : ∀ c ∈ ip, c.isDigit)
    (hfp : ∀ c ∈ fp, c.isDigit) (hne : fp ≠ []) :
    parseUnsigned (ip ++ '.' :: fp) =
      some (((digitsVal ip : ℚ) * 10 ^ fp.length + digitsVal fp) / 10 ^ fp.length) := by
  obtain ⟨ht, hd⟩ := takeWhile_append_dot ip fp hip
  simp only [parseUnsigned, ht, hd]
  rw [if_pos]
  exact ⟨Or.inr hne, List.all_eq_true.mpr hip, List.all_eq_true.mpr hfp⟩

lemma parseDecimal_fixed (s : String) (ip fp : List Char) (hs : s.data = ip ++ '.' :: fp)
    (hip : ∀ c ∈ ip, c.isDigit) (hfp : ∀ c ∈ fp, c.isDigit) (hne : fp ≠ []) :
    parseDecimal s =
      some (((digitsVal ip : ℚ) * 10 ^ fp.length + digitsVal fp) / 10 ^ fp.length) := by
  unfold parseDecimal
  rw [hs]
  cases ip with
  | nil =>
    simp only [List.nil_append]
    rw [if_neg (by decide), if_neg (by decide)]
    exact parseUnsigned_append [] fp hip hfp hne
  | cons c cs =>
    have hcd : c.isDigit := hip c (by simp)
    have h1 : ¬ c = '-' := by intro e; subst e; exact absurd hcd (by decide)
    have h2 : ¬ c = '+' := by intro e; subst e; exact absurd hcd (by decide)
    simp only [List.cons_append]
    rw [if_neg h1, if_neg h2, ← List.cons_append]
    exact parseUnsigned_append (c :: cs) fp hip hfp hne

lemma length_insertByName (f : DirEntry) (l : List DirEntry) :
    (insertByName f l).length = l.length + 1 := by
  induction l with
  | nil => rfl
  | cons g gs ih =>
    unfold insertByName
    by_cases h : leName f.name.data g.name.data
    · simp [h]
    · simp [h, ih]

lemma length_sortByName (l : List DirEntry) : (sortByName l).length = l.length := by
  induction l with
  | nil => rfl
  | cons f fs ih => simp [sortByName, length_insertByName, ih]

/-! ### Claim theorems -/

/-- Claim C1: for every cache state, if the cache file parses, holds a (truthy)
refresh token and its expiry is zero or the current time is more than 60
seconds before the expiry, `get_refresh_token_cached` returns the cached token
with no network call and no cache write; otherwise — expiry within 60 seconds
or in the past, or cache file absent — it performs a fresh token-issuance
call, persists `{refresh, refresh_expires_at}` to the cache file, and returns
the new token. -/
theorem token_cache_spec (now se : Int) (sr : String) :
    (∀ (r : String) (expOpt : Option Int), r ≠ "" →
        (expOpt.getD 0 = 0 ∨ now < expOpt.getD 0 - 60) →
        get_refresh_token_cached (.parsed (some r) expOpt) now (.ok (sr, se)) =
          .ok ⟨r, false, none⟩)
  ∧ (∀ (r : String) (expOpt : Option Int), r ≠ "" →
        ¬ (expOpt.getD 0 = 0 ∨ now < expOpt.getD 0 - 60) →
        get_refresh_token_cached (.parsed (some r) expOpt) now (.ok (sr, se)) =
          .ok ⟨sr, true, some (sr, if se = 0 then 0 else now + se)⟩)
  ∧ get_refresh_token_cached .absent now (.ok (sr, se)) =
      .ok ⟨sr, true, some (sr, if se = 0 then 0 else now + se)⟩ := by
  refine ⟨?_, ?_, ?_⟩
  · intro r expOpt hr hv
    simp only [get_refresh_token_cached]
    rw [if_pos ⟨hr, hv⟩]
  · intro r expOpt hr hv
    simp only [get_refresh_token_cached]
    rw [if_neg (fun hc => hv hc.2)]
    simp [freshToken, token_new]
  · simp [get_refresh_token_cached, freshToken, token_new]

/-- Witness for C1 at a concrete cache hit: expiry 1000, current time 0. -/
theorem token_cache_spec_witness :
    ("tok" ≠ "" ∧ (((some (1000 : Int)).getD 0 = 0) ∨ (0 : Int) < (some (1000 : Int)).getD 0 - 60)) ∧
    get_refresh_token_cached (.parsed (some "tok") (some 1000)) 0 (.ok ("r1", 3600)) =
      .ok ⟨"tok", false, none⟩ := by
  refine ⟨⟨by decide, by decide⟩, ?_⟩
  exact (token_cache_spec 0 3600 "r1").1 "tok" (some 1000) (by decide) (by decide)

/-- Claim C5: when the `balances` key is absent or its list is empty, the
Balance Selector raises `"No balances returned"` and never returns a value. -/
theorem choose_balance_empty_fails (pref_env : Option String) :
    choose_balance none pref_env = .error "No balances returned" ∧
    choose_balance (some []) pref_env = .error "No balances returned" := by
  exact ⟨rfl, rfl⟩

/-- Claim C10: the `BALANCE_TYPE_PREFERENCE` entries are split on commas,
stripped of surrounding whitespace and dropped when empty; an unset variable
or one set to the empty string yields the default preference order. -/
theorem preference_list_spec :
    preference_list none =
      ["closingBooked", "closingAvailable", "interimBooked", "interimAvailable", "expected"]
  ∧ preference_list (some "") =
      ["closingBooked", "closingAvailable", "interimBooked", "interimAvailable", "expected"]
  ∧ (∀ s : String, s ≠ "" →
      preference_list (some s) =
        ((pySplitComma s).filter (fun p => pyStrip p != "")).map pyStrip)
  ∧ (∀ (s x : String), s ≠ "" → x ∈ preference_list (some s) →
      x ≠ "" ∧ x ∈ (pySplitComma s).map pyStrip) := by
  refine ⟨by decide, by decide, ?_, ?_⟩
  · intro s hs
    simp [preference_list, hs]
  · intro s x hs hx
    simp only [preference_list, hs, if_neg hs, List.mem_map, List.mem_filter] at hx
    rcases hx with ⟨p, ⟨hp, hpne⟩, rfl⟩
    refine ⟨by simpa using hpne, List.mem_map_of_mem _ hp⟩

/-- Witness for C10 at the concrete value `" a , ,b "`: split, strip, drop
empties gives `["a", "b"]`. -/
theorem preference_list_spec_witness :
    (" a , ,b " ≠ "") ∧
    preference_list (some " a , ,b ") =
      ((pySplitComma " a , ,b ").filter (fun p => pyStrip p != "")).map pyStrip ∧
    preference_list (some " a , ,b ") = ["a", "b"] := by
  refine ⟨by decide, preference_list_spec.2.2.1 _ (by decide), by decide⟩

/-- Claim C2: for every balance list and a preference list (whose entries,
coming from `preference_list`, are never empty), the Balance Selector settles
on a record whose `balanceType` is the earliest entry of the preference list
present among the records — and the selected type is the same for every
reordering of the payload list. -/
theorem choose_balance_preference_order (preferred : List String)
    (bs : List BalanceRecord) (t : String)
    (h0 : "" ∉ preferred)
    (ht : preferred.find? (fun s => bs.any (fun b => b.balanceType == some s)) = some t) :
    (∃ r, pickRecord preferred bs = some r ∧ r.balanceType = some t)
  ∧ ∀ bs', bs.Perm bs' →
      ∃ r', pickRecord preferred bs' = some r' ∧ r'.balanceType = some t := by
  refine ⟨pick_of_find preferred bs t h0 ht, ?_⟩
  intro bs' hperm
  have heq : preferred.find? (fun s => bs'.any (fun b => b.balanceType == some s)) =
      preferred.find? (fun s => bs.any (fun b => b.balanceType == some s)) :=
    find?_congr _ _ _ (fun s _ => (any_perm _ hperm).symm)
  exact pick_of_find preferred bs' t h0 (heq.trans ht)

/-- Witness for C2: with the default preference order, a payload holding an
`interimAvailable` and a `closingBooked` record selects type `closingBooked`,
for every ordering of the two records. -/
theorem choose_balance_preference_order_witness :
    ("" ∉ preference_list none) ∧
    ((preference_list none).find?
        (fun s => [recInterimAvailable, recClosingBooked].any
          (fun b => b.balanceType == some s)) = some "closingBooked") ∧
    ((∃ r, pickRecord (preference_list none) [recInterimAvailable, recClosingBooked] = some r ∧
        r.balanceType = some "closingBooked")
      ∧ ∀ bs', [recInterimAvailable, recClosingBooked].Perm bs' →
          ∃ r', pickRecord (preference_list none) bs' = some r' ∧
            r'.balanceType = some "closingBooked") := by
  refine ⟨by decide, by decide, ?_⟩
  exact choose_balance_preference_order _ _ _ (by decide) (by decide)

/-- Claim C3: when no record's `balanceType` appears in the preference list,
the Balance Selector falls back to the first record in payload order. -/
theorem choose_balance_fallback_first (preferred : List String) (b0 : BalanceRecord)
    (rest : List BalanceRecord)
    (h : ∀ b ∈ b0 :: rest, ∀ t, b.balanceType = some t → t ∉ preferred) :
    pickRecord preferred (b0 :: rest) = some b0 := by
  have hnone : findPreferred (byType (b0 :: rest)) preferred = none := by
    rw [findPreferred_eq]
    have hfind : preferred.find? (fun s => (byType (b0 :: rest) s).isSome) = none := by
      rw [List.find?_eq_none]
      intro s hs hsome
      rcases Option.isSome_iff_exists.mp hsome with ⟨r, hr⟩
      have hm := byType_some _ _ _ hr
      exact h r hm.1 s hm.2.1 hs
    rw [hfind]
    rfl
  unfold pickRecord
  rw [List.head?_cons, hnone]
  rfl

/-- Witness for C3: two records whose types are absent from the default
preference list; the first one in payload order is selected. -/
theorem choose_balance_fallback_first_witness :
    (∀ b ∈ [recOtherA, recOtherB], ∀ t, b.balanceType = some t → t ∉ preference_list none) ∧
    pickRecord (preference_list none) [recOtherA, recOtherB] = some recOtherA := by
  have h : ∀ b ∈ [recOtherA, recOtherB], ∀ t, b.balanceType = some t →
      t ∉ preference_list none := by
    intro b hb t hbt
    simp only [List.mem_cons, List.not_mem_nil, or_false] at hb
    rcases hb with rfl | rfl
    · rw [show recOtherA.balanceType = some "someOtherType" from rfl, Option.some_inj] at hbt
      subst hbt
      decide
    · rw [show recOtherB.balanceType = some "anotherType" from rfl, Option.some_inj] at hbt
      subst hbt
      decide
  exact ⟨h, choose_balance_fallback_first _ _ _ h⟩

/-- Claim C9: a record whose `balanceType` is absent or empty is never in the
type index, it can be selected only as the payload-order fallback, and when
the first record is such a record while some preferred type is present among
the rest, a different (later) record carrying that type is selected. -/
theorem typeless_records_excluded (b : BalanceRecord)
    (hb : b.balanceType = none ∨ b.balanceType = some "") :
    (∀ (bs : List BalanceRecord) (s : String), byType bs s ≠ some b)
  ∧ (∀ (preferred : List String) (bs : List BalanceRecord),
      pickRecord preferred bs = some b →
      bs.head? = some b ∧ findPreferred (byType bs) preferred = none)
  ∧ (∀ (preferred : List String) (rest : List BalanceRecord) (t : String),
      preferred.find? (fun s => (byType (b :: rest) s).isSome) = some t →
      ∃ r, pickRecord preferred (b :: rest) = some r ∧ r ≠ b ∧ r.balanceType = some t) := by
  have hidx : ∀ (bs : List BalanceRecord) (s : String), byType bs s ≠ some b := by
    intro bs s hcontra
    have hm := byType_some bs s b hcontra
    rcases hb with hbn | hbe
    · rw [hbn] at hm
      exact Option.noConfusion hm.2.1
    · rw [hbe, Option.some_inj] at hm
      exact hm.2.2 hm.2.1.symm
  refine ⟨hidx, ?_, ?_⟩
  · intro preferred bs hpick
    unfold pickRecord at hpick
    cases hh : bs.head? with
    | none =>
      rw [hh] at hpick
      exact Option.noConfusion hpick
    | some b0 =>
      rw [hh, Option.some_inj] at hpick
      cases hf : findPreferred (byType bs) preferred with
      | some r =>
        rw [hf, Option.getD_some] at hpick
        subst hpick
        rcases findPreferred_mem _ _ _ hf with ⟨t, _, hbt⟩
        exact absurd hbt (hidx bs t)
      | none =>
        rw [hf, Option.getD_none] at hpick
        subst hpick
        exact ⟨rfl, rfl⟩
  · intro preferred rest t ht
    have hpred := List.find?_some ht
    rcases Option.isSome_iff_exists.mp hpred with ⟨r, hr⟩
    have hm := byType_some _ _ _ hr
    refine ⟨r, ?_, fun e => hidx (b :: rest) t (e ▸ hr), hm.2.1⟩
    unfold pickRecord
    simp only [List.head?_cons, findPreferred_eq, ht, Option.some_bind, hr, Option.getD_some]

/-- Witness for C9: a record with no `balanceType` in front of a
`closingBooked` record; the typeless record is never indexed and the later
record is selected. -/
theorem typeless_records_excluded_witness :
    (recNoType.balanceType = none ∨ recNoType.balanceType = some "") ∧
    ((∀ (bs : List BalanceRecord) (s : String), byType bs s ≠ some recNoType)
    ∧ (∀ (preferred : List String) (bs : List BalanceRecord),
        pickRecord preferred bs = some recNoType →
        bs.head? = some recNoType ∧ findPreferred (byType bs) preferred = none)
    ∧ (∀ (preferred : List String) (rest : List BalanceRecord) (t : String),
        preferred.find? (fun s => (byType (recNoType :: rest) s).isSome) = some t →
        ∃ r, pickRecord preferred (recNoType :: rest) = some r ∧ r ≠ recNoType ∧
          r.balanceType = some t)) :=
  ⟨Or.inl rfl, typeless_records_excluded recNoType (Or.inl rfl)⟩

/-- Claim C4: for every selected balance record whose amount string is a
fixed-point decimal literal `ip.fp`, the Balance Selector returns the exact
rational value `(ip * 10^|fp| + fp) / 10^|fp|` — monetary precision is
preserved exactly, with no floating-point approximation. -/
theorem choose_balance_amount_exact (balances_json : Option (List BalanceRecord))
    (pref_env : Option String) (chosen : BalanceRecord) (ba : BalanceAmount)
    (ip fp : List Char)
    (hpick : pickRecord (preference_list pref_env) (balances_json.getD []) = some chosen)
    (hba : chosen.balanceAmount = some ba)
    (hamt : ba.amount.data = ip ++ '.' :: fp)
    (hip : ∀ c ∈ ip, c.isDigit) (hfp : ∀ c ∈ fp, c.isDigit) (hne : fp ≠ []) :
    choose_balance balances_json pref_env =
      .ok (((digitsVal ip : ℚ) * 10 ^ fp.length + digitsVal fp) / 10 ^ fp.length,
        ba.currency, chosen.balanceType.getD "", refTimestamp chosen) := by
  simp only [choose_balance, hpick, hba,
    parseDecimal_fixed ba.amount ip fp hamt hip hfp hne]

/-- Witness for C4: the amount string `"123.45"` round-trips as the exact
rational `12345/100`. -/
theorem choose_balance_amount_exact_witness :
    pickRecord (preference_list none) [recClosingBooked] = some recClosingBooked ∧
    choose_balance (some [recClosingBooked]) none =
      .ok ((12345 : ℚ) / 100, "EUR", "closingBooked", "") := by
  have h := choose_balance_amount_exact (some [recClosingBooked]) none recClosingBooked
    ⟨"123.45", "EUR"⟩ ['1', '2', '3'] ['4', '5'] (by decide) rfl rfl
    (by decide) (by decide) (by decide)
  refine ⟨by decide, ?_⟩
  rw [h]
  have h1 : digitsVal ['1', '2', '3'] = 123 := rfl
  have h2 : digitsVal ['4', '5'] = 45 := rfl
  rw [h1, h2]
  norm_num [recClosingBooked, refTimestamp, pyOrStr]

/-- Claim C6: the single-JSON lookup fails when the directory is missing or
when it does not hold exactly one `.json` file (zero or several), and succeeds
returning that file when exactly one `.json` file is present. -/
theorem find_single_json_spec (entries : List DirEntry) (f : DirEntry) :
    (∃ m, find_single_json none = .error m)
  ∧ ((entries.filter isJsonFile).length ≠ 1 →
      ∃ m, find_single_json (some entries) = .error m)
  ∧ (entries.filter isJsonFile = [f] → find_single_json (some entries) = .ok f) := by
  refine ⟨⟨_, rfl⟩, ?_, ?_⟩
  · intro hlen
    simp only [find_single_json]
    cases hs : sortByName (entries.filter isJsonFile) with
    | nil => exact ⟨_, rfl⟩
    | cons g gs =>
      cases gs with
      | nil =>
        exfalso
        apply hlen
        have hl := length_sortByName (entries.filter isJsonFile)
        rw [hs] at hl
        simpa using hl.symm
      | cons g2 gs2 => exact ⟨_, rfl⟩
  · intro hf
    simp only [find_single_json, hf]
    rfl

/-- Witness for C6: a directory holding one `.json` file and one `.txt` file
succeeds with the `.json` file. -/
theorem find_single_json_spec_witness :
    ([⟨"creds.json", true⟩, ⟨"readme.txt", true⟩] : List DirEntry).filter isJsonFile =
      [⟨"creds.json", true⟩] ∧
    find_single_json (some [⟨"creds.json", true⟩, ⟨"readme.txt", true⟩]) =
      .ok ⟨"creds.json", true⟩ := by
  refine ⟨by decide, ?_⟩
  exact (find_single_json_spec [⟨"creds.json", true⟩, ⟨"readme.txt", true⟩]
    ⟨"creds.json", true⟩).2.2 (by decide)

/-- Counterexample to claim C7 as stated: with the `refresh` key present but
the expiry key missing, the code keys the missing expiry to zero ("never
expires") and returns the *cached* token — it does not request a fresh one as
the claim demands for any missing key. -/
theorem cache_missing_expiry_counterexample :
    get_refresh_token_cached (.parsed (some "tok") none) 0 (.ok ("r1", 3600)) =
      .ok ⟨"tok", false, none⟩ ∧
    ¬ ∃ w, get_refresh_token_cached (.parsed (some "tok") none) 0 (.ok ("r1", 3600)) =
        .ok ⟨"r1", true, w⟩ := by
  have h1 : get_refresh_token_cached (.parsed (some "tok") none) 0 (.ok ("r1", 3600)) =
      .ok ⟨"tok", false, none⟩ := by decide
  refine ⟨h1, ?_⟩
  rintro ⟨w, hw⟩
  rw [h1] at hw
  injection hw with h2
  have h3 := congrArg TokenResult.usedNetwork h2
  exact Bool.noConfusion h3

/-- Claim C7 amended: if the `refresh` key is missing, a fresh token is
requested and persisted (no crash); if only the expiry key is missing, it is
treated as zero (non-expiring) and the *cached* token is returned; if the file
content is not valid structured data, the invocation fails with an error. -/
theorem cache_partial_keys_amended (now : Int) (sr : String) (se : Int) :
    (∀ expOpt : Option Int,
        get_refresh_token_cached (.parsed none expOpt) now (.ok (sr, se)) =
          .ok ⟨sr, true, some (sr, if se = 0 then 0 else now + se)⟩)
  ∧ (∀ r : String, r ≠ "" →
        get_refresh_token_cached (.parsed (some r) none) now (.ok (sr, se)) =
          .ok ⟨r, false, none⟩)
  ∧ (∀ issue, ∃ m, get_refresh_token_cached .invalid now issue = .error m) := by
  refine ⟨?_, ?_, fun issue => ⟨_, rfl⟩⟩
  · intro expOpt
    simp [get_refresh_token_cached, freshToken, token_new]
  · intro r hr
    simp only [get_refresh_token_cached]
    rw [if_pos ⟨hr, Or.inl rfl⟩]

/-- Witness for the amended C7 at concrete inputs: both-keys-missing requests
a fresh token; refresh present with expiry missing returns the cached token. -/
theorem cache_partial_keys_amended_witness :
    ("tok" ≠ "") ∧
    get_refresh_token_cached (.parsed none none) 5 (.ok ("r1", 0)) =
      .ok ⟨"r1", true, some ("r1", 0)⟩ ∧
    get_refresh_token_cached (.parsed (some "tok") none) 5 (.ok ("r1", 0)) =
      .ok ⟨"tok", false, none⟩ := by
  refine ⟨by decide, ?_, ?_⟩
  · have h := (cache_partial_keys_amended 5 "r1" 0).1 none
    simpa using h
  · exact (cache_partial_keys_amended 5 "r1" 0).2.1 "tok" (by decide)

/-- Counterexample to claim C8 as stated: a `run` invocation with all
environment variables set, no cache file, a successful token issuance and an
empty balance list mints and persists a new refresh token to the cache file
and then fails — persisted state changed although the sequence did not
complete, so a failing run is not always free of writes. -/
theorem cmd_run_partial_write_counterexample :
    (cmd_run exRunEnv).1 = .error "No balances returned" ∧
    (cmd_run exRunEnv).2.cacheWritten = some ("r1", 4600) ∧
    (cmd_run exRunEnv).2.sheetWritten = none := by
  exact ⟨by decide, by decide, by decide⟩

/-- Claim C8 amended: the `run` command writes the spreadsheet exactly when
the whole fetch-and-write sequence completes — a failing run never reaches the
spreadsheet write — but the token-cache file may be rewritten by a run that
subsequently fails. -/
theorem cmd_run_sheet_write_iff_success (env : RunEnv) :
    ((cmd_run env).2.sheetWritten).isSome = isOkE (cmd_run env).1 := by
  unfold cmd_run
  repeat' split
  all_goals rfl

end Homebanking
